import Mathlib

/-!
Shallow embedding of the lockal locking library (src/src/lockal.ts).

Strings from the TypeScript side (keys, holder ids, storage key names) are
modelled as lists of characters (`Str`), so that prefix manipulation in the
garbage collector is directly expressible.  Time is a natural number of
milliseconds (the value of Date.now()).  JavaScript timers (setTimeout /
clearTimeout handles) are modelled as explicit lists of scheduled actions
carrying a numeric timer id; clearTimeout removes the timer with the given
id, and clearTimeout of undefined is a no-op.
-/

namespace Lockal

/-- Character-list model of JavaScript strings used as keys and ids. -/
abbrev Str := List Char

/-- Errors thrown or rejected by the library: a LockFailedError (the class
defined in lockal.ts, distinguished by mustAcquire's instanceof check) or a
plain Error (such as the TTL configuration error). -/
inductive JsError
  | lockFailed (msg : String)
  | plain (msg : String)
deriving DecidableEq

/-- Model of the instanceof LockFailedError test in Lock.mustAcquire. -/
def JsError.isLockFailed : JsError → Bool
  | .lockFailed _ => true
  | .plain _ => false

/-- The ICookieContents record stored by LocalStorageStrategy:
an absolute expiry timestamp and the holder's id. -/
structure CookieContents where
  expiresAt : Nat
  id : Str
deriving DecidableEq

/-- A raw string held in localStorage, as seen by JSON.parse: either a
well-formed serialization of an ICookieContents record, or a corrupted
string on which JSON.parse throws. -/
inductive StoredString
  | valid (c : CookieContents)
  | corrupt
deriving DecidableEq

/-- Lookup in a string-keyed store (localStorage or memoryStore). -/
def assocGet {β : Type} : List (Str × β) → Str → Option β
  | [], _ => none
  | (k, v) :: rest, key => if k = key then some v else assocGet rest key

/-- Deletion from a string-keyed store (removeItem / the delete operator). -/
def assocRemove {β : Type} (st : List (Str × β)) (key : Str) : List (Str × β) :=
  st.filter (fun kv => kv.1 ≠ key)

/-- Update of a string-keyed store (setItem / index assignment): replace any
existing binding for the key. -/
def assocSet {β : Type} (st : List (Str × β)) (key : Str) (v : β) : List (Str × β) :=
  (key, v) :: assocRemove st key

/-- The localStorage key/value store: an association list from full key
names (prefix already applied) to stored strings. -/
abbrev Storage := List (Str × StoredString)

/-- localStorage.getItem: the first binding for the key, null when absent. -/
def storageGet (st : Storage) (key : Str) : Option StoredString :=
  assocGet st key

/-- localStorage.removeItem. -/
def storageRemove (st : Storage) (key : Str) : Storage :=
  assocRemove st key

/-- localStorage.setItem. -/
def storageSet (st : Storage) (key : Str) (v : StoredString) : Storage :=
  assocSet st key v

/-! ## LocalStorageStrategy -/

/-- Constructor arguments of LocalStorageStrategy: the key namespace and the
settle delay (checkDelay). -/
structure LSConfig where
  pfx : Str
  checkDelay : Nat
deriving DecidableEq

/-- Default constructor arguments: prefix "lockal-" and checkDelay 5. -/
def LSConfig.default : LSConfig :=
  { pfx := "lockal-".data, checkDelay := 5 }

/-- LocalStorageStrategy.garbageCollectionInterval (one minute). -/
def garbageCollectionInterval : Nat := 1000 * 60

/-- A pending setTimeout(() => this.release(key, id), ttl) scheduled by a
successful acquire: timer id, absolute firing time, and release arguments. -/
structure ScheduledRelease where
  tid : Nat
  fireAt : Nat
  key : Str
  holderId : Str
deriving DecidableEq

/-- Mutable per-instance state of a LocalStorageStrategy together with the
shared localStorage and the timers it has scheduled.  releaseTimeout is the
field declared at line 32 of lockal.ts; nextTid numbers fresh timers. -/
structure LSState where
  storage : Storage
  timers : List ScheduledRelease
  releaseTimeout : Option Nat
  nextTid : Nat
deriving DecidableEq

/-- clearTimeout(h) where h may be undefined: removes the timer with id h
when h is defined, and does nothing on an undefined handle. -/
def clearTimeoutOpt (timers : List ScheduledRelease) : Option Nat → List ScheduledRelease
  | none => timers
  | some t => timers.filter (fun r => r.tid ≠ t)

/-- LocalStorageStrategy.getValue: read the raw string for prefix ++ key and
JSON.parse it; a parse failure is caught and yields null, as does an absent
key. -/
def getValue (cfg : LSConfig) (st : Storage) (sourceKey : Str) : Option CookieContents :=
  match storageGet st (cfg.pfx ++ sourceKey) with
  | none => none
  | some (.valid c) => some c
  | some .corrupt => none

/-- LocalStorageStrategy.getHolder: the id of the stored record when its
expiresAt is strictly in the future, null otherwise. -/
def getHolder (cfg : LSConfig) (st : Storage) (key : Str) (now : Nat) : Option Str :=
  match getValue cfg st key with
  | some c => if now < c.expiresAt then some c.id else none
  | none => none

/-- Outcome of the synchronous part of LocalStorageStrategy.acquire (lines
49-63): a synchronous throw, an immediate Promise.reject, an immediate
resolve (checkDelay = 0), or a promise that settles after the checkDelay
delay (continued by lsAcquire2). -/
inductive AcquireStep
  | threw (e : JsError)
  | rejected (e : JsError)
  | resolvedNow
  | settling
deriving DecidableEq

/-- LocalStorageStrategy.acquire, synchronous part (lines 49-63): TTL
configuration check, clearTimeout(this.releaseTimeout), holder check, the
optimistic write, and the checkDelay = 0 early resolve. -/
def lsAcquire1 (cfg : LSConfig) (s : LSState) (key id : Str) (ttl now : Nat) :
    AcquireStep × LSState :=
  if ttl < cfg.checkDelay then
    (.threw (.plain "The lock TTL may not be less then checkDelay ms"), s)
  else
    let s1 : LSState := { s with timers := clearTimeoutOpt s.timers s.releaseTimeout }
    let holder := getHolder cfg s1.storage key now
    if holder.isSome ∧ holder ≠ some id then
      (.rejected (.lockFailed "That key is already locked"), s1)
    else
      let s2 : LSState :=
        { s1 with storage := storageSet s1.storage (cfg.pfx ++ key) (.valid ⟨now + ttl, id⟩) }
      if cfg.checkDelay = 0 then (.resolvedNow, s2) else (.settling, s2)

/-- LocalStorageStrategy.acquire, continuation after the settle delay (lines
65-71): re-read the holder; reject with LockFailedError when it is no longer
id, otherwise schedule the expiry release at ttl and resolve.  The setTimeout
return value is discarded by the source, so releaseTimeout is not assigned. -/
def lsAcquire2 (cfg : LSConfig) (s : LSState) (key id : Str) (ttl now : Nat) :
    Except JsError Unit × LSState :=
  if getHolder cfg s.storage key now ≠ some id then
    (.error (.lockFailed "Failed to acquire the lock"), s)
  else
    (.ok (),
      { s with
        timers := s.timers ++ [⟨s.nextTid, now + ttl, key, id⟩]
        nextTid := s.nextTid + 1 })

/-- LocalStorageStrategy.release: remove the record when the key is unheld
(absent or expired holder) or held by id; otherwise leave it alone. -/
def lsRelease (cfg : LSConfig) (st : Storage) (key id : Str) (now : Nat) : Storage :=
  match getHolder cfg st key now with
  | none => storageRemove st (cfg.pfx ++ key)
  | some h => if h = id then storageRemove st (cfg.pfx ++ key) else st

/-- Firing of a pending ScheduledRelease timer at its firing time: runs
this.release(key, id) and discards the spent timer. -/
def fireScheduledRelease (cfg : LSConfig) (s : LSState) (t : ScheduledRelease) : LSState :=
  { s with
    storage := lsRelease cfg s.storage t.key t.holderId t.fireAt
    timers := s.timers.filter (fun r => r.tid ≠ t.tid) }

/-- LocalStorageStrategy.garbageCollect (lines 106-120): the index loop with
the i -= 1 compensation visits every localStorage entry once and removes
exactly those whose key starts with the prefix and whose holder (looked up
through getHolder on the key with the prefix stripped) is null; it is the
filter keeping every other entry. -/
def lsGarbageCollect (cfg : LSConfig) (st : Storage) (now : Nat) : Storage :=
  st.filter (fun kv =>
    ¬ cfg.pfx.isPrefixOf kv.1 ∨
      (getHolder cfg st (kv.1.drop cfg.pfx.length) now).isSome)

/-- LocalStorageStrategy constructor (lines 34-44): run garbageCollect, which
then stamps the shared lastGarbageCollection, only when at least
garbageCollectionInterval has elapsed since that shared timestamp.  The pair
is (new lastGarbageCollection, new storage). -/
def lsConstruct (cfg : LSConfig) (lastGC : Nat) (st : Storage) (now : Nat) :
    Nat × Storage :=
  if lastGC + garbageCollectionInterval ≤ now then
    (now, lsGarbageCollect cfg st now)
  else
    (lastGC, st)

/-- Concrete renewal run, first step: holder a acquires key k at time 100
with ttl 1000 on a default-configured LocalStorageStrategy over empty
storage. -/
def renewalRun1 : LSState :=
  (lsAcquire1 LSConfig.default ⟨[], [], none, 0⟩ ['k'] ['a'] 1000 100).2

/-- Renewal run, second step: the settle check of the first acquire at time
105 succeeds and schedules the expiry release at 1105. -/
def renewalRun2 : LSState :=
  (lsAcquire2 LSConfig.default renewalRun1 ['k'] ['a'] 1000 105).2

/-- Renewal run, third step: the same holder renews at time 600, extending
the record to expiresAt 1600. -/
def renewalRun3 : LSState :=
  (lsAcquire1 LSConfig.default renewalRun2 ['k'] ['a'] 1000 600).2

/-- Renewal run, fourth step: the renewal's settle check at time 605
succeeds and schedules a second expiry release at 1605. -/
def renewalRun4 : LSState :=
  (lsAcquire2 LSConfig.default renewalRun3 ['k'] ['a'] 1000 605).2

/-! ## MemoryStrategy -/

/-- The IMemoryContents record in memoryStore: holder id, absolute expiry,
and the handle of the setTimeout that deletes the record at TTL expiry. -/
structure MemRecord where
  id : Str
  expiresAt : Nat
  removerTimeout : Nat
deriving DecidableEq

/-- A pending setTimeout(() => delete memoryStore[key], ttl): timer id,
absolute firing time and the key it deletes. -/
structure ScheduledRemove where
  tid : Nat
  fireAt : Nat
  key : Str
deriving DecidableEq

/-- The module-level memoryStore together with the remover timers scheduled
on it; nextTid numbers fresh timers. -/
structure MemState where
  store : List (Str × MemRecord)
  timers : List ScheduledRemove
  nextTid : Nat
deriving DecidableEq

/-- memoryStore[key]: the record currently stored under key, if any. -/
def memGet (store : List (Str × MemRecord)) (key : Str) : Option MemRecord :=
  assocGet store key

/-- Assignment memoryStore[key] = v: replace any existing binding. -/
def memSet (store : List (Str × MemRecord)) (key : Str) (v : MemRecord) :
    List (Str × MemRecord) :=
  assocSet store key v

/-- delete memoryStore[key]. -/
def memDelete (store : List (Str × MemRecord)) (key : Str) : List (Str × MemRecord) :=
  assocRemove store key

/-- clearTimeout on a remover-timer handle. -/
def memClearTimeout (timers : List ScheduledRemove) (t : Nat) : List ScheduledRemove :=
  timers.filter (fun r => r.tid ≠ t)

/-- MemoryStrategy.acquire (lines 136-150): reject with LockFailedError when
a non-expired record with a different id is stored; otherwise (clearing the
old remover timer on a same-holder renewal) arm a fresh remover timer at ttl
and store the record with id and expiresAt = now + ttl. -/
def memAcquire (s : MemState) (key id : Str) (ttl now : Nat) :
    Except JsError Unit × MemState :=
  let cleared : List ScheduledRemove :=
    match memGet s.store key with
    | some v =>
      if now < v.expiresAt then
        if v.id = id then memClearTimeout s.timers v.removerTimeout else s.timers
      else s.timers
    | none => s.timers
  match memGet s.store key with
  | some v =>
    if now < v.expiresAt ∧ v.id ≠ id then
      (.error (.lockFailed "Failed to acquire the lock"), s)
    else
      (.ok (),
        { store := memSet s.store key ⟨id, now + ttl, s.nextTid⟩
          timers := cleared ++ [⟨s.nextTid, now + ttl, key⟩]
          nextTid := s.nextTid + 1 })
  | none =>
    (.ok (),
      { store := memSet s.store key ⟨id, now + ttl, s.nextTid⟩
        timers := cleared ++ [⟨s.nextTid, now + ttl, key⟩]
        nextTid := s.nextTid + 1 })

/-- MemoryStrategy.release (lines 155-161): when the stored record belongs
to id, cancel its remover timer and delete it; otherwise do nothing. -/
def memRelease (s : MemState) (key id : Str) : MemState :=
  match memGet s.store key with
  | some v =>
    if v.id = id then
      { s with
        store := memDelete s.store key
        timers := memClearTimeout s.timers v.removerTimeout }
    else s
  | none => s

/-! ## Lock orchestrator -/

/-- Which ILockStrategy implementation a Lock was configured with. -/
inductive StrategyKind
  | memory
  | localStorageStrategy
deriving DecidableEq

/-- The resolved ILockOptions of a Lock. -/
structure LockOptions where
  strategy : StrategyKind
  retryInterval : Nat
deriving DecidableEq

/-- A value of type Partial of ILockOptions: each field may be omitted. -/
structure LockOptionsPartial where
  strategy : Option StrategyKind
  retryInterval : Option Nat
deriving DecidableEq

/-- The options merge in the Lock constructor (lines 203-207): defaults
strategy = new MemoryStrategy() and retryInterval = 20, overridden by any
field present in the caller's partial options. -/
def lockOptionsOf (p : LockOptionsPartial) : LockOptions :=
  { strategy := p.strategy.getD .memory
    retryInterval := p.retryInterval.getD 20 }

/-- Lock.release (lines 224-231) with the MemoryStrategy backend: stop any
active maintenance loop (clearInterval plus nulling the handle) and
delegate to the strategy's release with this lock's key and id. -/
def lockReleaseMem (key id : Str) (maintenanceLoop : Option Nat) (s : MemState) :
    Option Nat × MemState :=
  match maintenanceLoop with
  | some _ => (none, memRelease s key id)
  | none => (none, memRelease s key id)

/-- Default value of mustAcquire's timeout parameter (line 237). -/
def mustAcquireDefaultTimeout : Nat := 10 * 1000

/-- Default value of whilst's ttl parameter (line 265). -/
def whilstDefaultTtl : Nat := 1000

/-- Lock.mustAcquire's inner run loop (lines 239-251), driven by the outcome
each call to this.acquire(ttl) would have at a given instant (acquireAt).
Before each attempt the deadline is checked: once Date.now() has reached
startedAt + timeout the loop rejects with LockFailedError "Timed out trying
to acquire lock".  A LockFailedError from an attempt schedules the next
attempt retryInterval later; any other error is rethrown unchanged.  fuel
bounds the recursion depth; when it runs out the deadline rejection is
returned (with positive retryInterval, fuel = timeout + 1 is never
exhausted before the deadline check fires). -/
def mustAcquireRun (acquireAt : Nat → Except JsError Unit)
    (retryInterval startedAt timeout : Nat) : Nat → Nat → Except JsError Unit
  | 0, _ => .error (.lockFailed "Timed out trying to acquire lock")
  | fuel + 1, now =>
    if startedAt + timeout ≤ now then
      .error (.lockFailed "Timed out trying to acquire lock")
    else
      match acquireAt now with
      | .ok _ => .ok ()
      | .error e =>
        if e.isLockFailed then
          mustAcquireRun acquireAt retryInterval startedAt timeout fuel
            (now + retryInterval)
        else .error e

/-- Lock.mustAcquire (lines 237-254): startedAt is Date.now() at entry and
run() is invoked immediately. -/
def mustAcquire (acquireAt : Nat → Except JsError Unit)
    (retryInterval startedAt timeout : Nat) : Except JsError Unit :=
  mustAcquireRun acquireAt retryInterval startedAt timeout (timeout + 1) startedAt

/-- Observable events of one whilst call, in settlement order. -/
inductive Ev
  | mustAcquireEv
  | startMaintenance (interval : Nat)
  | runFn
  | releaseEv
deriving DecidableEq

/-- A settled promise together with the log of events that occurred while
producing it. -/
abbrev Prom (α : Type) := List Ev × Except JsError α

/-- Promise.prototype.then with a fulfillment handler: a rejection bypasses
the handler. -/
def pThen {α β : Type} (p : Prom α) (f : α → Prom β) : Prom β :=
  match p with
  | (log, .ok a) => (log ++ (f a).1, (f a).2)
  | (log, .error e) => (log, .error e)

/-- Promise.prototype.catch: a fulfillment bypasses the handler. -/
def pCatch {α : Type} (p : Prom α) (f : JsError → Prom α) : Prom α :=
  match p with
  | (log, .ok a) => (log, .ok a)
  | (log, .error e) => (log ++ (f e).1, (f e).2)

/-- One tick of the maintenance loop set up by whilst (line 269):
this.acquire(ttl).catch(() => undefined); the renewal outcome is swallowed. -/
def maintenanceTick (acquireResult : Except JsError Unit) : Except JsError Unit :=
  (pCatch (([] : List Ev), acquireResult) (fun _ => ([], .ok ()))).2

/-- Lock.whilst (lines 265-282) as a promise chain, parameterized by the
outcome of mustAcquire(ttl, timeout) and by the outcome of fn(): on
mustAcquire success it starts the maintenance interval at ttl / 2 and runs
fn; the final then/catch pair releases the lock and then passes fn's value
through or rethrows fn's error. -/
def whilstRun {T : Type} (mustAcqResult : Except JsError Unit)
    (fnResult : Except JsError T) (ttl : Nat) : Prom T :=
  pCatch
    (pThen
      (pThen (([Ev.mustAcquireEv], mustAcqResult))
        (fun _ => ([Ev.startMaintenance (ttl / 2), Ev.runFn], fnResult)))
      (fun v => ([Ev.releaseEv], .ok v)))
    (fun e => ([Ev.releaseEv], .error e))

/-! ## Store lemmas -/

theorem assocGet_assocRemove_self {β : Type} (st : List (Str × β)) (key : Str) :
    assocGet (assocRemove st key) key = none := by
  induction st with
  | nil => rfl
  | cons kv rest ih =>
    by_cases h : kv.1 = key
    · simpa [assocRemove, h] using ih
    · simpa [assocRemove, assocGet, h] using ih

theorem assocGet_assocRemove_ne {β : Type} (st : List (Str × β)) (key k' : Str)
    (h : k' ≠ key) : assocGet (assocRemove st key) k' = assocGet st k' := by
  induction st with
  | nil => rfl
  | cons kv rest ih =>
    by_cases hk : kv.1 = key
    · simp [assocRemove, assocGet, hk, Ne.symm h] at ih ⊢
      simpa [assocRemove] using ih
    · by_cases hk' : kv.1 = k'
      · simp [assocRemove, assocGet, List.filter_cons, hk, hk', h]
      · simp [assocRemove, assocGet, List.filter_cons, hk, hk'] at ih ⊢
        simpa [assocRemove] using ih

theorem assocGet_assocSet_self {β : Type} (st : List (Str × β)) (key : Str) (v : β) :
    assocGet (assocSet st key v) key = some v := by
  simp [assocSet, assocGet]

theorem assocGet_assocSet_ne {β : Type} (st : List (Str × β)) (key k' : Str) (v : β)
    (h : k' ≠ key) : assocGet (assocSet st key v) k' = assocGet st k' := by
  simp [assocSet, assocGet, Ne.symm h]
  exact assocGet_assocRemove_ne st key k' h

/-! ## MemoryStrategy lemmas -/

instance exceptDecidableEq {ε α : Type} [DecidableEq ε] [DecidableEq α] :
    DecidableEq (Except ε α) := fun a b =>
  match a, b with
  | .ok x, .ok y =>
    if h : x = y then isTrue (by rw [h])
    else isFalse (by intro hc; cases hc; exact h rfl)
  | .ok _, .error _ => isFalse (by intro hc; cases hc)
  | .error _, .ok _ => isFalse (by intro hc; cases hc)
  | .error x, .error y =>
    if h : x = y then isTrue (by rw [h])
    else isFalse (by intro hc; cases hc; exact h rfl)

theorem memAcquire_reject_iff (s : MemState) (key id : Str) (ttl now : Nat) :
    (memAcquire s key id ttl now).1
        = .error (.lockFailed "Failed to acquire the lock")
      ↔ ∃ v, memGet s.store key = some v ∧ v.id ≠ id ∧ now < v.expiresAt := by
  cases h : memGet s.store key with
  | none =>
    have h' : assocGet s.store key = none := h
    simp [memAcquire, h, h']
  | some v =>
    have h' : assocGet s.store key = some v := h
    by_cases hvid : v.id = id <;> by_cases hlt : now < v.expiresAt <;>
      simp [memAcquire, h, h', hvid, hlt]

theorem memAcquire_ok_iff (s : MemState) (key id : Str) (ttl now : Nat) :
    (memAcquire s key id ttl now).1 = .ok ()
      ↔ ¬ ∃ v, memGet s.store key = some v ∧ v.id ≠ id ∧ now < v.expiresAt := by
  cases h : memGet s.store key with
  | none =>
    have h' : assocGet s.store key = none := h
    simp [memAcquire, h, h']
  | some v =>
    have h' : assocGet s.store key = some v := h
    by_cases hvid : v.id = id <;> by_cases hlt : now < v.expiresAt <;>
      simp [memAcquire, h, h', hvid, hlt]

theorem memAcquire_reject_frame (s : MemState) (key id : Str) (ttl now : Nat)
    (h : (memAcquire s key id ttl now).1 ≠ .ok ()) :
    (memAcquire s key id ttl now).2 = s := by
  cases hg : memGet s.store key with
  | none =>
    have hg' : assocGet s.store key = none := hg
    simp [memAcquire, hg, hg'] at h
  | some v =>
    have hg' : assocGet s.store key = some v := hg
    by_cases hvid : v.id = id <;> by_cases hlt : now < v.expiresAt <;>
      simp [memAcquire, hg, hg', hvid, hlt] at h ⊢

theorem memAcquire_ok_store (s : MemState) (key id : Str) (ttl now : Nat)
    (h : (memAcquire s key id ttl now).1 = .ok ()) :
    memGet (memAcquire s key id ttl now).2.store key
      = some ⟨id, now + ttl, s.nextTid⟩ := by
  cases hg : memGet s.store key with
  | none =>
    have hg' : assocGet s.store key = none := hg
    simp [memAcquire, hg, hg', memGet, memSet, assocGet_assocSet_self]
  | some v =>
    have hg' : assocGet s.store key = some v := hg
    by_cases hvid : v.id = id <;> by_cases hlt : now < v.expiresAt <;>
      simp [memAcquire, hg, hg', hvid, hlt, memGet, memSet, assocGet_assocSet_self] at h ⊢

theorem assocGet_of_mem_nodup {β : Type} (st : List (Str × β)) (k : Str) (v : β)
    (hnd : (st.map Prod.fst).Nodup) (hm : (k, v) ∈ st) :
    assocGet st k = some v := by
  induction st with
  | nil => cases hm
  | cons kv rest ih =>
    rw [List.map_cons, List.nodup_cons] at hnd
    rcases List.mem_cons.1 hm with h | h
    · cases h
      simp [assocGet]
    · have hk : kv.1 ≠ k := by
        intro hc
        exact hnd.1 (hc ▸ List.mem_map_of_mem Prod.fst h)
      simp only [assocGet, if_neg hk]
      exact ih hnd.2 h

theorem assocRemove_idem {β : Type} (st : List (Str × β)) (k : Str) :
    assocRemove (assocRemove st k) k = assocRemove st k := by
  induction st with
  | nil => rfl
  | cons kv rest ih =>
    by_cases h : kv.1 = k
    · simp [assocRemove, List.filter_cons, h]
    · simp [assocRemove, List.filter_cons, h]

theorem memRelease_idem (s : MemState) (key id : Str) :
    memRelease (memRelease s key id) key id = memRelease s key id := by
  cases hg : memGet s.store key with
  | none => simp [memRelease, hg]
  | some v =>
    have hg' : assocGet s.store key = some v := hg
    by_cases hv : v.id = id
    · have h2 : memGet (memRelease s key id).store key = none := by
        simp [memRelease, hg, hg', hv, memGet, memDelete, assocGet_assocRemove_self]
      generalize hs' : memRelease s key id = s' at h2
      have h2' : assocGet s'.store key = none := h2
      simp [memRelease, h2, h2']
    · simp [memRelease, hg, hv]

theorem lsRelease_idem (cfg : LSConfig) (st : Storage) (key id : Str) (now : Nat) :
    lsRelease cfg (lsRelease cfg st key id now) key id now
      = lsRelease cfg st key id now := by
  have hrem : ∀ st' : Storage,
      getHolder cfg (assocRemove st' (cfg.pfx ++ key)) key now = none := by
    intro st'
    simp [getHolder, getValue, storageGet, assocGet_assocRemove_self]
  cases hh : getHolder cfg st key now with
  | none => simp [lsRelease, hh, hrem, storageRemove, assocRemove_idem]
  | some h =>
    by_cases hv : h = id
    · simp [lsRelease, hh, hv, hrem, storageRemove, assocRemove_idem]
    · simp [lsRelease, hh, hv]

theorem lsAcquire1_blocked (cfg : LSConfig) (s : LSState) (key id : Str)
    (ttl now : Nat) (httl : ¬ ttl < cfg.checkDelay) (h : Str)
    (hh : getHolder cfg s.storage key now = some h) (hne : h ≠ id) :
    lsAcquire1 cfg s key id ttl now
      = (.rejected (.lockFailed "That key is already locked"),
          { s with timers := clearTimeoutOpt s.timers s.releaseTimeout }) := by
  simp [lsAcquire1, httl, hh, hne]

theorem lsAcquire1_free (cfg : LSConfig) (s : LSState) (key id : Str)
    (ttl now : Nat) (httl : ¬ ttl < cfg.checkDelay)
    (hh : getHolder cfg s.storage key now = none
        ∨ getHolder cfg s.storage key now = some id) :
    lsAcquire1 cfg s key id ttl now
      = (if cfg.checkDelay = 0 then AcquireStep.resolvedNow else AcquireStep.settling,
          { s with
            timers := clearTimeoutOpt s.timers s.releaseTimeout
            storage := storageSet s.storage (cfg.pfx ++ key)
              (.valid ⟨now + ttl, id⟩) }) := by
  rcases hh with hh | hh <;> simp [lsAcquire1, httl, hh] <;> split <;> rfl

theorem lsAcquire2_taken (cfg : LSConfig) (s : LSState) (key id : Str)
    (ttl now : Nat) (hh : getHolder cfg s.storage key now ≠ some id) :
    lsAcquire2 cfg s key id ttl now
      = (.error (.lockFailed "Failed to acquire the lock"), s) := by
  simp [lsAcquire2, hh]

theorem lsAcquire2_kept (cfg : LSConfig) (s : LSState) (key id : Str)
    (ttl now : Nat) (hh : getHolder cfg s.storage key now = some id) :
    lsAcquire2 cfg s key id ttl now
      = (.ok (),
          { s with
            timers := s.timers ++ [⟨s.nextTid, now + ttl, key, id⟩]
            nextTid := s.nextTid + 1 }) := by
  simp [lsAcquire2, hh]

/-! ## Claim theorems -/

/-- C7: calling LocalStorageStrategy.acquire with ttl strictly below the
configured checkDelay throws a plain Error synchronously at call time, as
the first statement of the method — before any storage read or write, so
the state comes back untouched; the error is not a LockFailedError, so a
mustAcquire whose acquire fails this way aborts at the very first attempt,
propagating the error unchanged instead of retrying. -/
theorem lsAcquire_ttl_config_error (cfg : LSConfig) (s : LSState) (key id : Str)
    (ttl now : Nat) (hlt : ttl < cfg.checkDelay) :
    lsAcquire1 cfg s key id ttl now
        = (.threw (.plain "The lock TTL may not be less then checkDelay ms"), s) ∧
    JsError.isLockFailed (.plain "The lock TTL may not be less then checkDelay ms")
        = false ∧
    (∀ (acquireAt : Nat → Except JsError Unit) (rI startedAt timeout : Nat),
      startedAt < startedAt + timeout →
      acquireAt startedAt
        = .error (.plain "The lock TTL may not be less then checkDelay ms") →
      mustAcquire acquireAt rI startedAt timeout
        = .error (.plain "The lock TTL may not be less then checkDelay ms")) := by
  refine ⟨by simp [lsAcquire1, hlt], rfl,
    fun acquireAt rI startedAt timeout hd he => ?_⟩
  simp [mustAcquire, mustAcquireRun, Nat.not_le.2 hd, he, JsError.isLockFailed]

/-- Witness for C7: ttl 3 under the default checkDelay 5 throws the plain
configuration error with the state untouched, and a mustAcquire meeting
that error at its first attempt returns it unchanged. -/
theorem lsAcquire_ttl_config_error_witness :
    lsAcquire1 LSConfig.default ⟨[], [], none, 0⟩ ['k'] ['a'] 3 100
        = (.threw (.plain "The lock TTL may not be less then checkDelay ms"),
            ⟨[], [], none, 0⟩) ∧
    mustAcquire
        (fun _ => .error (.plain "The lock TTL may not be less then checkDelay ms"))
        20 0 50
      = .error (.plain "The lock TTL may not be less then checkDelay ms") :=
  ⟨(lsAcquire_ttl_config_error LSConfig.default ⟨[], [], none, 0⟩ ['k'] ['a'] 3 100
      (by decide)).1,
    (lsAcquire_ttl_config_error LSConfig.default ⟨[], [], none, 0⟩ ['k'] ['a'] 3 100
      (by decide)).2.2 _ 20 0 50 (by decide) rfl⟩

/-- C2: LocalStorageStrategy.acquire with ttl at least checkDelay follows
the write-then-verify protocol: with a different non-expired holder present
it rejects immediately with LockFailedError and leaves the storage
unwritten; otherwise it writes {id, expiresAt: now + ttl} under the
prefixed key, resolves immediately when checkDelay is 0 and otherwise
enters the settle wait, whose continuation re-reads the record and rejects
with LockFailedError exactly when the holder of record is no longer id,
resolving otherwise. -/
theorem lsAcquire_write_then_verify (cfg : LSConfig) (s : LSState) (key id : Str)
    (ttl now : Nat) (httl : cfg.checkDelay ≤ ttl) :
    (∀ h, getHolder cfg s.storage key now = some h → h ≠ id →
      (lsAcquire1 cfg s key id ttl now).1
          = .rejected (.lockFailed "That key is already locked") ∧
      (lsAcquire1 cfg s key id ttl now).2.storage = s.storage) ∧
    ((getHolder cfg s.storage key now = none
        ∨ getHolder cfg s.storage key now = some id) →
      storageGet (lsAcquire1 cfg s key id ttl now).2.storage (cfg.pfx ++ key)
          = some (.valid ⟨now + ttl, id⟩) ∧
      (cfg.checkDelay = 0 → (lsAcquire1 cfg s key id ttl now).1 = .resolvedNow) ∧
      (cfg.checkDelay ≠ 0 → (lsAcquire1 cfg s key id ttl now).1 = .settling)) ∧
    (∀ (s2 : LSState) (now2 : Nat),
      (getHolder cfg s2.storage key now2 ≠ some id →
        lsAcquire2 cfg s2 key id ttl now2
          = (.error (.lockFailed "Failed to acquire the lock"), s2)) ∧
      (getHolder cfg s2.storage key now2 = some id →
        (lsAcquire2 cfg s2 key id ttl now2).1 = .ok ())) := by
  have httl' : ¬ ttl < cfg.checkDelay := Nat.not_lt.2 httl
  refine ⟨fun h hh hne => ?_, fun hh => ?_,
    fun s2 now2 => ⟨fun hh => lsAcquire2_taken cfg s2 key id ttl now2 hh,
      fun hh => by rw [lsAcquire2_kept cfg s2 key id ttl now2 hh]⟩⟩
  · rw [lsAcquire1_blocked cfg s key id ttl now httl' h hh hne]
    exact ⟨rfl, rfl⟩
  · rw [lsAcquire1_free cfg s key id ttl now httl' hh]
    refine ⟨?_, fun h0 => by simp [h0], fun h0 => by simp [h0]⟩
    exact assocGet_assocSet_self s.storage (cfg.pfx ++ key) _

/-- Witness for C2 at a concrete run: from an empty storage, acquire of key
k by holder a at time 10 with ttl 100 writes the record and enters the
settle wait; the continuation at time 15 still reads holder a and
resolves. -/
theorem lsAcquire_write_then_verify_witness :
    storageGet (lsAcquire1 LSConfig.default ⟨[], [], none, 0⟩ ['k'] ['a'] 100 10).2.storage
        ("lockal-".data ++ ['k']) = some (.valid ⟨110, ['a']⟩) ∧
    (lsAcquire1 LSConfig.default ⟨[], [], none, 0⟩ ['k'] ['a'] 100 10).1 = .settling ∧
    (lsAcquire2 LSConfig.default
        (lsAcquire1 LSConfig.default ⟨[], [], none, 0⟩ ['k'] ['a'] 100 10).2
        ['k'] ['a'] 100 15).1 = .ok () := by
  have h := lsAcquire_write_then_verify LSConfig.default ⟨[], [], none, 0⟩ ['k'] ['a']
    100 10 (by decide)
  refine ⟨(h.2.1 (Or.inl rfl)).1, (h.2.1 (Or.inl rfl)).2.2 (by decide), ?_⟩
  exact (h.2.2 (lsAcquire1 LSConfig.default ⟨[], [], none, 0⟩ ['k'] ['a'] 100 10).2 15).2
    (by rfl)

/-- Counterexample to C6 as stated: on a key whose stored record is
corrupted, getValue catches the parse failure and returns null, so acquire
silently treats the key as free: it neither throws nor rejects any error —
it overwrites the corrupted record, enters the settle wait, and the settled
continuation succeeds. -/
theorem corrupted_record_counterexample :
    getValue LSConfig.default [("lockal-".data ++ ['k'], .corrupt)] ['k'] = none ∧
    (lsAcquire1 LSConfig.default ⟨[("lockal-".data ++ ['k'], .corrupt)], [], none, 0⟩
        ['k'] ['a'] 100 10).1 = .settling ∧
    (lsAcquire2 LSConfig.default
        (lsAcquire1 LSConfig.default
          ⟨[("lockal-".data ++ ['k'], .corrupt)], [], none, 0⟩ ['k'] ['a'] 100 10).2
        ['k'] ['a'] 100 15).1 = .ok () :=
  ⟨rfl, rfl, rfl⟩

/-- C6 amended: a stored record that cannot be deserialized is caught
inside getValue and read as null, so the key reads as free; acquire on a
corrupted record therefore propagates no error at all and instead proceeds
as on an absent record, overwriting the corrupted value with a fresh valid
record. -/
theorem corrupted_record_treated_free (cfg : LSConfig) (s : LSState) (key id : Str)
    (ttl now : Nat) (httl : cfg.checkDelay ≤ ttl)
    (hc : storageGet s.storage (cfg.pfx ++ key) = some .corrupt) :
    getValue cfg s.storage key = none ∧
    getHolder cfg s.storage key now = none ∧
    storageGet (lsAcquire1 cfg s key id ttl now).2.storage (cfg.pfx ++ key)
        = some (.valid ⟨now + ttl, id⟩) ∧
    (lsAcquire1 cfg s key id ttl now).1
        = (if cfg.checkDelay = 0 then AcquireStep.resolvedNow
            else AcquireStep.settling) := by
  have hv : getValue cfg s.storage key = none := by
    simp [getValue, hc]
  have hh : getHolder cfg s.storage key now = none := by
    simp [getHolder, hv]
  rw [lsAcquire1_free cfg s key id ttl now (Nat.not_lt.2 httl) (Or.inl hh)]
  exact ⟨hv, hh, assocGet_assocSet_self s.storage (cfg.pfx ++ key) _, rfl⟩

/-- C8: the LocalStorageStrategy constructor runs garbage collection
exactly when at least garbageCollectionInterval (one minute) has elapsed
since the shared lastGarbageCollection stamp, which the collection then
refreshes to the current time; when it runs it keeps precisely the entries
whose key does not start with the backend's prefix or whose record still
has a valid (non-expired) holder, removing every prefixed entry whose
record is expired or unreadable. -/
theorem garbage_collection_spec (cfg : LSConfig) (lastGC : Nat) (st : Storage)
    (now : Nat) (hnd : (st.map Prod.fst).Nodup) :
    (lastGC + garbageCollectionInterval ≤ now →
      lsConstruct cfg lastGC st now = (now, lsGarbageCollect cfg st now)) ∧
    (now < lastGC + garbageCollectionInterval →
      lsConstruct cfg lastGC st now = (lastGC, st)) ∧
    (∀ k v, (k, v) ∈ st →
      ((k, v) ∈ lsGarbageCollect cfg st now ↔
        ¬ cfg.pfx.isPrefixOf k ∨ ∃ c, v = .valid c ∧ now < c.expiresAt)) ∧
    garbageCollectionInterval = 1000 * 60 := by
  refine ⟨fun hd => by simp [lsConstruct, hd],
    fun hd => by simp [lsConstruct, Nat.not_le.2 hd],
    fun k v hm => ?_, rfl⟩
  have hget : assocGet st k = some v := assocGet_of_mem_nodup st k v hnd hm
  by_cases hp : cfg.pfx.isPrefixOf k
  · have hp' : cfg.pfx <+: k := List.isPrefixOf_iff_prefix.1 hp
    have hk : cfg.pfx ++ k.drop cfg.pfx.length = k :=
      List.prefix_iff_eq_append.1 hp'
    have hv : getValue cfg st (k.drop cfg.pfx.length)
        = match v with | .valid c => some c | .corrupt => none := by
      simp only [getValue, storageGet, hk, hget]
      cases v <;> rfl
    rw [lsGarbageCollect, List.mem_filter]
    simp only [hm, true_and, decide_eq_true_eq, hp, not_true_eq_false, false_or]
    cases v with
    | corrupt =>
      simp [getHolder, hv]
    | valid c =>
      by_cases hlt : now < c.expiresAt <;> simp [getHolder, hv, hlt]
  · rw [lsGarbageCollect, List.mem_filter]
    simp [hm, hp]

/-- Witness for C8 on a concrete storage at time 70000 with the stamp at 0:
the constructor collects, dropping the expired and the corrupt prefixed
entries while keeping the live prefixed record and the foreign key. -/
theorem garbage_collection_spec_witness :
    lsConstruct LSConfig.default 0
        [("lockal-".data ++ ['a'], .valid ⟨80000, ['x']⟩),
         ("lockal-".data ++ ['b'], .valid ⟨100, ['y']⟩),
         ("lockal-".data ++ ['c'], .corrupt),
         (['z'], .corrupt)] 70000
      = (70000,
          lsGarbageCollect LSConfig.default
            [("lockal-".data ++ ['a'], .valid ⟨80000, ['x']⟩),
             ("lockal-".data ++ ['b'], .valid ⟨100, ['y']⟩),
             ("lockal-".data ++ ['c'], .corrupt),
             (['z'], .corrupt)] 70000) ∧
    (("lockal-".data ++ ['a'], StoredString.valid ⟨80000, ['x']⟩)
        ∈ lsGarbageCollect LSConfig.default
            [("lockal-".data ++ ['a'], .valid ⟨80000, ['x']⟩),
             ("lockal-".data ++ ['b'], .valid ⟨100, ['y']⟩),
             ("lockal-".data ++ ['c'], .corrupt),
             (['z'], .corrupt)] 70000
      ↔ True) := by
  constructor
  · exact (garbage_collection_spec LSConfig.default 0
      [("lockal-".data ++ ['a'], .valid ⟨80000, ['x']⟩),
       ("lockal-".data ++ ['b'], .valid ⟨100, ['y']⟩),
       ("lockal-".data ++ ['c'], .corrupt),
       (['z'], .corrupt)] 70000 (by decide)).1 (by decide)
  · rw [(garbage_collection_spec LSConfig.default 0
      [("lockal-".data ++ ['a'], .valid ⟨80000, ['x']⟩),
       ("lockal-".data ++ ['b'], .valid ⟨100, ['y']⟩),
       ("lockal-".data ++ ['c'], .corrupt),
       (['z'], .corrupt)] 70000 (by decide)).2.2.1
      ("lockal-".data ++ ['a']) (.valid ⟨80000, ['x']⟩) (by decide)]
    simp only [iff_true]
    exact Or.inr ⟨⟨80000, ['x']⟩, rfl, by decide⟩

/-- C9: neither acquire phase ever cancels a previously scheduled expiry
action — the releaseTimeout handle that acquire clears at entry is never
assigned, staying at its initial undefined value, so the clearTimeout at
acquire entry is a no-op and scheduled timers only accumulate; in the
concrete renewal run, after the same holder renews at time 600 (record now
valid until 1600), the first acquire's expiry action, scheduled for 1105,
is still pending, and firing it deletes the record — the release succeeds
because the holder is still a — strictly before the renewed expiresAt. -/
theorem acquire_never_cancels_expiry :
    (∀ (cfg : LSConfig) (s : LSState) (key id : Str) (ttl now : Nat),
      (lsAcquire1 cfg s key id ttl now).2.releaseTimeout = s.releaseTimeout ∧
      (s.releaseTimeout = none →
        (lsAcquire1 cfg s key id ttl now).2.timers = s.timers)) ∧
    (∀ (cfg : LSConfig) (s : LSState) (key id : Str) (ttl now : Nat),
      (lsAcquire2 cfg s key id ttl now).2.releaseTimeout = s.releaseTimeout ∧
      ∀ t ∈ s.timers, t ∈ (lsAcquire2 cfg s key id ttl now).2.timers) ∧
    (⟨0, 1105, ['k'], ['a']⟩ : ScheduledRelease) ∈ renewalRun4.timers ∧
    storageGet renewalRun4.storage ("lockal-".data ++ ['k'])
      = some (.valid ⟨1600, ['a']⟩) ∧
    storageGet
        (fireScheduledRelease LSConfig.default renewalRun4
          ⟨0, 1105, ['k'], ['a']⟩).storage ("lockal-".data ++ ['k'])
      = none ∧
    (1105 : Nat) < 1600 := by
  refine ⟨fun cfg s key id ttl now => ?_, fun cfg s key id ttl now => ?_,
    by decide, by decide, by decide, by decide⟩
  · by_cases httl : ttl < cfg.checkDelay
    · simp [lsAcquire1, httl]
    · by_cases hb : (getHolder cfg s.storage key now).isSome
          ∧ getHolder cfg s.storage key now ≠ some id
      · refine ⟨by simp [lsAcquire1, httl, hb], fun h => ?_⟩
        simp [lsAcquire1, httl, hb, clearTimeoutOpt, h]
      · constructor
        · simp only [lsAcquire1, if_neg httl, if_neg hb]
          split <;> rfl
        · intro h
          simp only [lsAcquire1, if_neg httl, if_neg hb]
          split <;> simp [clearTimeoutOpt, h]
  · by_cases hh : getHolder cfg s.storage key now ≠ some id
    · simp [lsAcquire2, hh]
    · refine ⟨by simp [lsAcquire2, hh], fun t ht => ?_⟩
      simp [lsAcquire2, hh]
      exact Or.inl ht

/-- Witness for C9 on the concrete renewal states: the first acquire phase
at renewal time leaves the pending timer list untouched, and the whole
renewal run retains the releaseTimeout field at none. -/
theorem acquire_never_cancels_expiry_witness :
    (lsAcquire1 LSConfig.default renewalRun2 ['k'] ['a'] 1000 600).2.timers
        = renewalRun2.timers ∧
    renewalRun4.releaseTimeout = none :=
  ⟨(acquire_never_cancels_expiry.1 LSConfig.default renewalRun2 ['k'] ['a']
      1000 600).2 (by decide),
    by decide⟩

/-- Witness for C6 amended: the corrupted record under the default prefix
is read as null and overwritten by a fresh record for holder a. -/
theorem corrupted_record_treated_free_witness :
    getValue LSConfig.default [("lockal-".data ++ ['k'], .corrupt)] ['k'] = none ∧
    storageGet (lsAcquire1 LSConfig.default
        ⟨[("lockal-".data ++ ['k'], .corrupt)], [], none, 0⟩ ['k'] ['a'] 100 10).2.storage
        ("lockal-".data ++ ['k']) = some (.valid ⟨110, ['a']⟩) :=
  ⟨(corrupted_record_treated_free LSConfig.default
      ⟨[("lockal-".data ++ ['k'], .corrupt)], [], none, 0⟩ ['k'] ['a'] 100 10
      (by decide) rfl).1,
    (corrupted_record_treated_free LSConfig.default
      ⟨[("lockal-".data ++ ['k'], .corrupt)], [], none, 0⟩ ['k'] ['a'] 100 10
      (by decide) rfl).2.2.1⟩

/-- C1: for the in-process atomic backend, MemoryStrategy.acquire rejects
with LockFailedError exactly when the store holds a record for the key with
a different holder whose expiresAt is strictly greater than the current
time; a rejection leaves the state untouched, and otherwise the call
resolves and stores {id, expiresAt: now + ttl}.  Consequently, after holder
idA acquires at t0 with lease ttlA, an acquire by a distinct holder idB
fails with LockFailedError at every instant strictly before t0 + ttlA and
succeeds at every instant from t0 + ttlA on. -/
theorem memAcquire_mutual_exclusion (s : MemState) (key idA idB : Str)
    (ttlA ttlB t0 : Nat) (hid : idB ≠ idA) :
    (∀ id ttl now,
      ((memAcquire s key id ttl now).1
          = .error (.lockFailed "Failed to acquire the lock")
        ↔ ∃ v, memGet s.store key = some v ∧ v.id ≠ id ∧ now < v.expiresAt)) ∧
    (∀ id ttl now, (memAcquire s key id ttl now).1 ≠ .ok () →
      (memAcquire s key id ttl now).2 = s) ∧
    (∀ id ttl now, (memAcquire s key id ttl now).1 = .ok () →
      memGet (memAcquire s key id ttl now).2.store key
        = some ⟨id, now + ttl, s.nextTid⟩) ∧
    ((memAcquire s key idA ttlA t0).1 = .ok () →
      (∀ t, t < t0 + ttlA →
        (memAcquire (memAcquire s key idA ttlA t0).2 key idB ttlB t).1
          = .error (.lockFailed "Failed to acquire the lock")) ∧
      (∀ t, t0 + ttlA ≤ t →
        (memAcquire (memAcquire s key idA ttlA t0).2 key idB ttlB t).1
          = .ok ())) := by
  refine ⟨fun id ttl now => memAcquire_reject_iff s key id ttl now,
    fun id ttl now => memAcquire_reject_frame s key id ttl now,
    fun id ttl now => memAcquire_ok_store s key id ttl now,
    fun hok => ⟨fun t ht => ?_, fun t ht => ?_⟩⟩
  · exact (memAcquire_reject_iff _ key idB ttlB t).2
      ⟨⟨idA, t0 + ttlA, s.nextTid⟩,
        memAcquire_ok_store s key idA ttlA t0 hok, Ne.symm hid, ht⟩
  · refine (memAcquire_ok_iff _ key idB ttlB t).2 ?_
    rintro ⟨v, hv, -, hlt⟩
    rw [memAcquire_ok_store s key idA ttlA t0 hok] at hv
    cases hv
    change t < t0 + ttlA at hlt
    omega

/-- C5: for both backends release(key, id) deletes the stored record only
when the key is unheld (record absent, or holder expired in the
LocalStorage case) or held by id; a key held by a different non-expired
holder is left unchanged.  No other holder's valid record is touched, and
Lock.release is idempotent: releasing twice equals releasing once, and a
release on a never-acquired key (record absent) changes nothing. -/
theorem release_ownership (cfg : LSConfig) (st : Storage) (s : MemState)
    (key id : Str) (now : Nat) :
    (∀ h, getHolder cfg st key now = some h → h ≠ id →
        lsRelease cfg st key id now = st) ∧
    (getHolder cfg st key now = none →
        lsRelease cfg st key id now = storageRemove st (cfg.pfx ++ key)) ∧
    (getHolder cfg st key now = some id →
        lsRelease cfg st key id now = storageRemove st (cfg.pfx ++ key)) ∧
    (∀ v, memGet s.store key = some v → v.id ≠ id → memRelease s key id = s) ∧
    (memGet s.store key = none → memRelease s key id = s) ∧
    (∀ v, memGet s.store key = some v → v.id = id →
        (memRelease s key id).store = memDelete s.store key) ∧
    (∀ k' c, storageGet st k' = some (.valid c) → c.id ≠ id →
        now < c.expiresAt →
        storageGet (lsRelease cfg st key id now) k' = some (.valid c)) ∧
    (∀ k' v, memGet s.store k' = some v → v.id ≠ id →
        memGet (memRelease s key id).store k' = some v) ∧
    (∀ ml, lockReleaseMem key id (lockReleaseMem key id ml s).1
        (lockReleaseMem key id ml s).2 = lockReleaseMem key id ml s) ∧
    lsRelease cfg (lsRelease cfg st key id now) key id now
      = lsRelease cfg st key id now := by
  refine ⟨fun h hh hne => by simp [lsRelease, hh, hne],
    fun hh => by simp [lsRelease, hh],
    fun hh => by simp [lsRelease, hh],
    fun v hv hne => ?_, fun hv => ?_, fun v hv heq => ?_,
    fun k' c hk hne hlt => ?_, fun k' v hk hne => ?_,
    fun ml => by cases ml <;> simp [lockReleaseMem, memRelease_idem],
    lsRelease_idem cfg st key id now⟩
  · have hv' : assocGet s.store key = some v := hv
    simp [memRelease, hv, hv', hne]
  · have hv' : assocGet s.store key = none := hv
    simp [memRelease, hv, hv']
  · have hv' : assocGet s.store key = some v := hv
    simp [memRelease, hv, hv', heq, memDelete]
  · have hk2 : assocGet st k' = some (.valid c) := hk
    by_cases hkey : k' = cfg.pfx ++ key
    · subst hkey
      have hh : getHolder cfg st key now = some c.id := by
        simp [getHolder, getValue, storageGet, hk2, hlt]
      simp [lsRelease, hh, hne, storageGet]
      exact hk2
    · cases hh : getHolder cfg st key now with
      | none =>
        simp [lsRelease, hh, storageGet, storageRemove]
        rw [assocGet_assocRemove_ne st (cfg.pfx ++ key) k' hkey]
        exact hk2
      | some h =>
        by_cases hid2 : h = id
        · simp [lsRelease, hh, hid2, storageGet, storageRemove]
          rw [assocGet_assocRemove_ne st (cfg.pfx ++ key) k' hkey]
          exact hk2
        · simp [lsRelease, hh, hid2, storageGet]
          exact hk2
  · have hk2 : assocGet s.store k' = some v := hk
    by_cases hkey : k' = key
    · subst hkey
      have hg' : assocGet s.store k' = some v := hk
      simp [memRelease, hk, hg', hne, memGet]
    · cases hg : memGet s.store key with
      | none =>
        have hg' : assocGet s.store key = none := hg
        simp [memRelease, hg, hg', memGet]
        exact hk2
      | some w =>
        have hg' : assocGet s.store key = some w := hg
        by_cases hw : w.id = id
        · simp [memRelease, hg, hg', hw, memGet, memDelete]
          rw [assocGet_assocRemove_ne s.store key k' hkey]
          exact hk2
        · simp [memRelease, hg, hg', hw, memGet]
          exact hk2

/-- Witness for C5 at a concrete input: key k is held (valid until 200) by
holder a; a release by holder b at time 100 leaves both backends' stores
unchanged. -/
theorem release_ownership_witness :
    lsRelease LSConfig.default
        [("lockal-".data ++ ['k'], .valid ⟨200, ['a']⟩)] ['k'] ['b'] 100
      = [("lockal-".data ++ ['k'], .valid ⟨200, ['a']⟩)] ∧
    memRelease ⟨[(['k'], ⟨['a'], 200, 0⟩)], [⟨0, 200, ['k']⟩], 1⟩ ['k'] ['b']
      = ⟨[(['k'], ⟨['a'], 200, 0⟩)], [⟨0, 200, ['k']⟩], 1⟩ := by
  constructor
  · exact (release_ownership LSConfig.default
      [("lockal-".data ++ ['k'], .valid ⟨200, ['a']⟩)]
      ⟨[(['k'], ⟨['a'], 200, 0⟩)], [⟨0, 200, ['k']⟩], 1⟩ ['k'] ['b'] 100).1
      ['a'] (by decide) (by decide)
  · exact (release_ownership LSConfig.default
      [("lockal-".data ++ ['k'], .valid ⟨200, ['a']⟩)]
      ⟨[(['k'], ⟨['a'], 200, 0⟩)], [⟨0, 200, ['k']⟩], 1⟩ ['k'] ['b'] 100).2.2.2.1
      ⟨['a'], 200, 0⟩ (by decide) (by decide)

/-- C10: a Lock constructed with no options, or with options omitting these
fields, defaults to the in-process MemoryStrategy (not the shared
LocalStorageStrategy) and to a retryInterval of 20ms; mustAcquire's default
timeout is 10000ms and whilst's default ttl is 1000ms. -/
theorem lock_defaults :
    lockOptionsOf ⟨none, none⟩ = ⟨.memory, 20⟩ ∧
    (∀ p : LockOptionsPartial, p.strategy = none →
        (lockOptionsOf p).strategy = .memory) ∧
    (∀ p : LockOptionsPartial, p.retryInterval = none →
        (lockOptionsOf p).retryInterval = 20) ∧
    mustAcquireDefaultTimeout = 10000 ∧ whilstDefaultTtl = 1000 := by
  refine ⟨rfl, ?_, ?_, rfl, rfl⟩ <;> intro p hp <;> simp [lockOptionsOf, hp]

/-- Witness for C10: partial options providing only the other field still
fall back to MemoryStrategy and to retryInterval 20. -/
theorem lock_defaults_witness :
    (lockOptionsOf ⟨none, some 7⟩).strategy = .memory ∧
    (lockOptionsOf ⟨some .localStorageStrategy, none⟩).retryInterval = 20 :=
  ⟨lock_defaults.2.1 ⟨none, some 7⟩ rfl,
    lock_defaults.2.2.1 ⟨some .localStorageStrategy, none⟩ rfl⟩

/-- C3: whilst first awaits mustAcquire(ttl, timeout); on success it starts
the maintenance interval at ttl / 2 — each tick re-invoking acquire(ttl)
with the outcome swallowed by catch — then runs fn; whether fn resolves or
rejects, the release event precedes settlement, and whilst settles with
exactly fn's outcome: fn's value on success, fn's error rethrown on
failure. -/
theorem whilst_releases_and_propagates {T : Type} (fnResult : Except JsError T)
    (ttl : Nat) (mustAcqResult : Except JsError Unit) :
    (mustAcqResult = .ok () →
      (whilstRun mustAcqResult fnResult ttl).1
        = [Ev.mustAcquireEv, Ev.startMaintenance (ttl / 2), Ev.runFn, Ev.releaseEv] ∧
      (whilstRun mustAcqResult fnResult ttl).2 = fnResult) ∧
    (∀ r : Except JsError Unit, maintenanceTick r = .ok ()) := by
  constructor
  · intro h
    subst h
    cases fnResult <;> simp [whilstRun, pThen, pCatch]
  · intro r
    cases r <;> rfl

/-- Witness for C3: with mustAcquire succeeding and fn rejecting with a
plain error, whilst logs acquire, maintenance start at 500 = 1000 / 2, fn,
then release, and settles with fn's error. -/
theorem whilst_releases_and_propagates_witness :
    (whilstRun (.ok ()) (.error (.plain "boom") : Except JsError Nat) 1000).1
      = [Ev.mustAcquireEv, Ev.startMaintenance 500, Ev.runFn, Ev.releaseEv] ∧
    (whilstRun (.ok ()) (.error (.plain "boom") : Except JsError Nat) 1000).2
      = .error (.plain "boom") :=
  ⟨((whilst_releases_and_propagates (.error (.plain "boom") : Except JsError Nat)
      1000 (.ok ())).1 rfl).1,
    ((whilst_releases_and_propagates (.error (.plain "boom") : Except JsError Nat)
      1000 (.ok ())).1 rfl).2⟩

/-- Counterexample to C4 as stated: with timeout 20 and retryInterval 20,
acquire fails with a LockFailedError at the first attempt (time 0) and
would succeed at time 20; at the wake-up the elapsed time equals — does not
exceed — the timeout, yet mustAcquire rejects with the timed-out
LockFailedError instead of making that attempt. -/
theorem mustAcquire_deadline_counterexample :
    mustAcquire (fun t => if t = 0 then .error (.lockFailed "x") else .ok ())
        20 0 20 = .error (.lockFailed "Timed out trying to acquire lock") ∧
    (fun t => if t = 0 then .error (.lockFailed "x") else .ok ()) 20
      = (.ok () : Except JsError Unit) := by
  constructor <;> rfl

/-- C4 amended: mustAcquire (default timeout 10000ms) starts attempting at
startedAt and checks the deadline before each attempt, rejecting with the
timed-out LockFailedError as soon as the elapsed time since the first
attempt reaches or exceeds the timeout; before the deadline an attempt's
success resolves, a LockFailedError schedules the next attempt
retryInterval later, and any other error is rethrown unchanged without a
retry; if every attempt fails with a LockFailedError the loop ends in the
timed-out rejection. -/
theorem mustAcquire_retry_spec (acquireAt : Nat → Except JsError Unit)
    (retryInterval startedAt timeout fuel now : Nat) :
    (startedAt + timeout ≤ now →
      mustAcquireRun acquireAt retryInterval startedAt timeout (fuel + 1) now
        = .error (.lockFailed "Timed out trying to acquire lock")) ∧
    (now < startedAt + timeout → acquireAt now = .ok () →
      mustAcquireRun acquireAt retryInterval startedAt timeout (fuel + 1) now
        = .ok ()) ∧
    (∀ e, now < startedAt + timeout → acquireAt now = .error e →
      e.isLockFailed = true →
      mustAcquireRun acquireAt retryInterval startedAt timeout (fuel + 1) now
        = mustAcquireRun acquireAt retryInterval startedAt timeout fuel
            (now + retryInterval)) ∧
    (∀ e, now < startedAt + timeout → acquireAt now = .error e →
      e.isLockFailed = false →
      mustAcquireRun acquireAt retryInterval startedAt timeout (fuel + 1) now
        = .error e) ∧
    ((∀ t, ∃ m, acquireAt t = .error (.lockFailed m)) →
      mustAcquire acquireAt retryInterval startedAt timeout
        = .error (.lockFailed "Timed out trying to acquire lock")) ∧
    mustAcquireDefaultTimeout = 10000 := by
  refine ⟨fun hd => ?_, fun hd hok => ?_, fun e hd he hl => ?_,
    fun e hd he hl => ?_, fun hall => ?_, rfl⟩
  · simp [mustAcquireRun, hd]
  · simp [mustAcquireRun, Nat.not_le.2 hd, hok]
  · simp [mustAcquireRun, Nat.not_le.2 hd, he, hl]
  · simp [mustAcquireRun, Nat.not_le.2 hd, he, hl]
  · have hgen : ∀ (f n : Nat),
        mustAcquireRun acquireAt retryInterval startedAt timeout f n
          = .error (.lockFailed "Timed out trying to acquire lock") := by
      intro f
      induction f with
      | zero => intro n; simp [mustAcquireRun]
      | succ m ih =>
        intro n
        by_cases hd : startedAt + timeout ≤ n
        · simp [mustAcquireRun, hd]
        · obtain ⟨mm, hm⟩ := hall n
          simp only [mustAcquireRun, if_neg hd, hm]
          simpa [JsError.isLockFailed] using ih (n + retryInterval)
    simpa [mustAcquire] using hgen (timeout + 1) startedAt

/-- Witness for C4 at concrete inputs: an acquire that always contends
makes mustAcquire with timeout 100 and retryInterval 30 time out, and a
non-LockFailed error at an attempt before the deadline is propagated
unchanged. -/
theorem mustAcquire_retry_spec_witness :
    mustAcquire (fun _ => .error (.lockFailed "held")) 30 0 100
      = .error (.lockFailed "Timed out trying to acquire lock") ∧
    mustAcquireRun (fun _ => .error (.plain "io")) 30 0 100 8 0
      = .error (.plain "io") :=
  ⟨(mustAcquire_retry_spec (fun _ => .error (.lockFailed "held")) 30 0 100 0 0).2.2.2.2.1
      (fun t => ⟨"held", rfl⟩),
    (mustAcquire_retry_spec (fun _ => .error (.plain "io")) 30 0 100 7 0).2.2.2.1
      (.plain "io") (by decide) rfl rfl⟩

/-- Witness for C1 at a concrete run: holder a acquires key k at time 10
with ttl 100 from the empty store; holder b then fails at time 50 and
succeeds at time 110. -/
theorem memAcquire_mutual_exclusion_witness :
    (memAcquire (memAcquire ⟨[], [], 0⟩ ['k'] ['a'] 100 10).2 ['k'] ['b'] 70 50).1
        = .error (.lockFailed "Failed to acquire the lock") ∧
    (memAcquire (memAcquire ⟨[], [], 0⟩ ['k'] ['a'] 100 10).2 ['k'] ['b'] 70 110).1
        = .ok () := by
  refine ⟨((memAcquire_mutual_exclusion ⟨[], [], 0⟩ ['k'] ['a'] ['b'] 100 70 10
      (by decide)).2.2.2 (by rfl)).1 50 (by decide),
    ((memAcquire_mutual_exclusion ⟨[], [], 0⟩ ['k'] ['a'] ['b'] 100 70 10
      (by decide)).2.2.2 (by rfl)).2 110 (by decide)⟩

end Lockal
